import Mathlib

/-
Verification development for the Hydro server core
(packages/hydrooj/src/service/server.ts): the type registry, the
parameter-descriptor builder, the binding executor, the authorization
composer (Checker), the HTTP request lifecycle dispatcher (handle) and
the socket connection protocol (Connection), shallowly embedded in Lean 4.

JavaScript values relevant to binding are modelled by `JsVal`; JavaScript
numbers (results of parseFloat) by `JsNum`.  Truthiness follows JavaScript:
undefined, null, false, 0, NaN and the empty string are falsy, everything
else (arrays included) is truthy.
-/

namespace Hydro

/-- Model of a JavaScript value as it flows through the binding pipeline. -/
inductive JsVal where
  | undefined : JsVal
  | null : JsVal
  | boolean : Bool → JsVal
  | num : Int → JsVal
  | str : String → JsVal
  | arr : List JsVal → JsVal

/-- JavaScript truthiness of a `JsVal`: undefined, null, false, 0 and ""
are falsy; every array (even empty) is truthy. -/
def truthy : JsVal → Bool
  | .undefined => false
  | .null => false
  | .boolean b => b
  | .num n => n != 0
  | .str s => s != ""
  | .arr _ => true

/-- JavaScript `a || b` on values: `a` when truthy, else `b`. -/
def jsOr (a b : JsVal) : JsVal := if truthy a then a else b

/-- `Types.Array`'s convert: `if (v instanceof Array) return v; return [v] || [];`
The non-array branch keeps the source's `[v] || []` expression. -/
def arrayConvert : JsVal → JsVal
  | .arr xs => .arr xs
  | v => jsOr (.arr [v]) (.arr [])

/-- Model of a JavaScript number: NaN, the two infinities, or a finite
value (represented exactly as a rational). -/
inductive JsNum where
  | nan : JsNum
  | inf : JsNum
  | ninf : JsNum
  | val : ℚ → JsNum
deriving DecidableEq

/-- JavaScript truthiness of a number: NaN and 0 are falsy. -/
def jsNumTruthy : JsNum → Bool
  | .nan => false
  | .val q => q != 0
  | _ => true

/-- `Number.isNaN`. -/
def jsIsNaN : JsNum → Bool
  | .nan => true
  | _ => false

/-- `Number.isFinite`. -/
def jsIsFinite : JsNum → Bool
  | .val _ => true
  | _ => false

/-- Decimal digit run value, most significant first. -/
def digitsNat (cs : List Char) : ℕ :=
  cs.foldl (fun a c => 10 * a + (c.toNat - 48)) 0

/-- Decimal digit run value as a rational. -/
def digitsVal (cs : List Char) : ℚ := (digitsNat cs : ℚ)

/-- Value of a fractional digit run (digits after the decimal point). -/
def fracVal (cs : List Char) : ℚ :=
  cs.foldr (fun c a => (((c.toNat - 48 : ℕ) : ℚ) + a) / 10) 0

/-- Model of JavaScript `parseFloat` on plain decimal literals: an optional
sign, an integer digit run and an optional fractional digit run; any
unparsable remainder is ignored, and a string with no leading numeric
prefix parses to NaN.  (Exponent notation, `Infinity` literals, leading
whitespace and double-rounding overflow are outside the model.) -/
def jsParseFloat (s : String) : JsNum :=
  let cs := s.data
  let sign : ℚ := match cs with | '-' :: _ => -1 | _ => 1
  let cs2 := match cs with | '-' :: r => r | '+' :: r => r | _ => cs
  let intPart := cs2.takeWhile Char.isDigit
  let rest := cs2.dropWhile Char.isDigit
  let fracPart := match rest with | '.' :: r => r.takeWhile Char.isDigit | _ => []
  if intPart.isEmpty && fracPart.isEmpty then JsNum.nan
  else JsNum.val (sign * (digitsVal intPart + fracVal fracPart))

/-- `Types.Float`'s validate: `const t = parseFloat(v); return t && !Number.isNaN(t)
&& Number.isFinite(t);` — the result's JavaScript truthiness, which is what the
binding wrapper consumes.  The leading `t &&` conjunct is the source's own. -/
def floatValidate (v : String) : Bool :=
  let t := jsParseFloat v
  jsNumTruthy t && !jsIsNaN t && jsIsFinite t

/-- `Types.Float`'s convert: `parseFloat(v)`. -/
def floatConvert (v : String) : JsNum := jsParseFloat v

/-! ## Parameter descriptor builder and binding executor -/

/-- Source a field's raw value is read from (`ParamOption.source`). -/
inductive Source where
  | all : Source
  | get : Source
  | post : Source
  | route : Source

/-- A parameter descriptor (`ParamOption` in server.ts). -/
structure ParamOption where
  name : String
  source : Source
  isOptional : Bool := false
  validate : Option (JsVal → Bool) := none
  convert : Option (JsVal → JsVal) := none

/-- The synthetic leading descriptor `_descriptor` seeds the list with:
`{ name: 'domainId', type: 'string', source: 'route' }` (the stray `type`
property is never read and is not modelled). -/
def domainIdParam : ParamOption := { name := "domainId", source := .route }

/-- One application of `_descriptor(v)` to a method's descriptor list:
an unset list is first seeded with `[domainIdParam]`, then `v` is spliced
into position 1 (`splice(1, 0, v)`). -/
def applyDescriptor (l : List ParamOption) (v : ParamOption) : List ParamOption :=
  let l' := if l.isEmpty then [domainIdParam] else l
  l'.take 1 ++ v :: l'.drop 1

/-- The descriptor list built by applying the given declarations in order
(the list starts unset, modelled as `[]`). -/
def buildParams (decls : List ParamOption) : List ParamOption :=
  decls.foldl applyDescriptor []

/-- The per-request raw-value environment the binding wrapper reads from:
`rawArgs` (the merged bag passed to the wrapped method), `this.request.query`,
`this.request.params`, `this.request.body` and `this.domainId`. Absent keys
yield `JsVal.undefined`. -/
structure ReqEnv where
  rawArgs : String → JsVal
  query : String → JsVal
  params : String → JsVal
  body : String → JsVal
  domainId : String

/-- Source-map selection in the binding wrapper: `'all'` reads the merged
bag, `'get'` the query, `'route'` reads `{...params, domainId}` (the spread
is overridden at the key `domainId`), anything else the body. -/
def selectSrc (r : ReqEnv) : Source → String → JsVal
  | .all => r.rawArgs
  | .get => r.query
  | .route => fun n => if n = "domainId" then .str r.domainId else r.params n
  | .post => r.body

/-- A `ValidationError(fieldName)` raised during binding. -/
structure BindErr where
  field : String
deriving DecidableEq

/-- One iteration of the binding loop in the wrapper `validate` installed by
`_descriptor`: look the field up in the descriptor's source; if the field is
required or the value truthy, a falsy value raises `ValidationError`, a
failing validator raises `ValidationError`, and otherwise the converted (or
raw) value is produced; an optional descriptor with a falsy value produces
`undefined`. -/
def bindOne (r : ReqEnv) (item : ParamOption) : Except BindErr JsVal :=
  let value := selectSrc r item.source item.name
  if !item.isOptional || truthy value then
    if !truthy value then .error ⟨item.name⟩
    else if (match item.validate with | some f => !(f value) | none => false) then
      .error ⟨item.name⟩
    else match item.convert with
      | some f => .ok (f value)
      | none => .ok value
  else .ok .undefined

/-- The whole binding loop: walk the descriptor list in order, abort on the
first `ValidationError`, and otherwise collect the positional argument list
passed to the original method. -/
def bindArgs (r : ReqEnv) : List ParamOption → Except BindErr (List JsVal)
  | [] => .ok []
  | item :: rest =>
    match bindOne r item with
    | .error e => .error e
    | .ok v =>
      match bindArgs r rest with
      | .error e => .error e
      | .ok vs => .ok (v :: vs)

/-- The value a descriptor binds to when its iteration does not raise. -/
def boundValue (r : ReqEnv) (item : ParamOption) : JsVal :=
  let value := selectSrc r item.source item.name
  if !item.isOptional || truthy value then
    match item.convert with
    | some f => f value
    | none => value
  else .undefined

theorem bindOne_ok_boundValue (r : ReqEnv) (item : ParamOption) (v : JsVal)
    (h : bindOne r item = .ok v) : v = boundValue r item := by
  cases hval : item.validate <;> cases hc : item.convert <;>
    simp only [bindOne, boundValue, hval, hc] at h ⊢ <;>
    split at h <;> (try split at h) <;> (try split at h) <;> simp_all

theorem bindArgs_ok_map (r : ReqEnv) (l : List ParamOption) (vs : List JsVal)
    (h : bindArgs r l = .ok vs) : vs = l.map (boundValue r) := by
  induction l generalizing vs with
  | nil => simpa [bindArgs] using h.symm
  | cons item rest ih =>
    unfold bindArgs at h
    cases h1 : bindOne r item with
    | error e => simp [h1] at h
    | ok v =>
      simp only [h1] at h
      cases h2 : bindArgs r rest with
      | error e => simp [h2] at h
      | ok ws =>
        simp only [h2] at h
        injection h with h
        subst h
        simp [ih ws h2, ← bindOne_ok_boundValue r item v h1]

/-! ## Authorization composer (`Checker`) -/

/-- An error raised by the composed guard: `PermissionError`,
`PrivilegeError`, or whatever a custom predicate throws. -/
inductive GErr where
  | permission : Int → GErr
  | privilege : Int → GErr
  | custom : String → GErr
deriving DecidableEq

/-- One item of `Checker`'s `permPrivChecker` argument: a bigint permission
mask, a number privilege mask, or a callable custom predicate (modelled by
the outcome of calling it). -/
inductive Fragment where
  | permF : Int → Fragment
  | privF : Int → Fragment
  | checkerF : Except GErr Unit → Fragment

/-- The state `Checker`'s collection loop accumulates: the last permission
mask, the last privilege mask, and the last custom predicate seen (the
predicate defaults to the no-op `() => {}`). -/
structure Collected where
  perm : Option Int := none
  priv : Option Int := none
  checker : Except GErr Unit := .ok ()

/-- `Checker`'s loop over `permPrivChecker`: for each item the matching
slot is overwritten, so the last fragment of each kind wins. -/
def collectFragments (l : List Fragment) : Collected :=
  l.foldl
    (fun acc f =>
      match f with
      | .permF p => { acc with perm := some p }
      | .privF p => { acc with priv := some p }
      | .checkerF c => { acc with checker := c })
    {}

/-- JavaScript truthiness of the collected `perm` / `priv` slot: `undefined`
and zero are falsy, so `if (perm)` / `if (priv)` skips those checks. -/
def maskTruthy : Option Int → Bool
  | none => false
  | some p => p != 0

/-- The composed guard returned by `Checker`: run the custom predicate, then
`if (perm) this.checkPerm(perm)` (which throws `PermissionError` when the
user lacks the mask), then `if (priv) this.checkPriv(priv)` (which throws
`PrivilegeError`).  `hasPerm` / `hasPriv` model `user.hasPerm` /
`user.hasPriv`. -/
def runGuard (g : Collected) (hasPerm hasPriv : Int → Bool) : Except GErr Unit :=
  match g.checker with
  | .error e => .error e
  | .ok _ =>
    match g.perm with
    | some p =>
      if p != 0 then
        if hasPerm p then
          runPriv g hasPriv
        else .error (.permission p)
      else runPriv g hasPriv
    | none => runPriv g hasPriv
where
  /-- The trailing `if (priv) this.checkPriv(priv)` step. -/
  runPriv (g : Collected) (hasPriv : Int → Bool) : Except GErr Unit :=
    match g.priv with
    | some q =>
      if q != 0 then
        if hasPriv q then .ok () else .error (.privilege q)
      else .ok ()
    | none => .ok ()

/-! ## Generic lifecycle step sequencer

`handle` (HTTP) and `Connection` (socket) both run a fixed sequence of
optional, fallible steps inside one `try`: a step whose hook is absent is
skipped, and the first raising step aborts the remainder.  `seqSteps`
executes such a sequence, returning the events that actually ran and the
outcome. -/

def seqSteps {ε α : Type} : List (α × Option (Except ε Unit)) → List α × Except ε Unit
  | [] => ([], Except.ok ())
  | (_, none) :: rest => seqSteps rest
  | (e, some (Except.error err)) :: _ => ([e], Except.error err)
  | (e, some (Except.ok _)) :: rest =>
    let p := seqSteps rest
    (e :: p.1, p.2)

/-- When the whole sequence succeeds, the recorded events are exactly the
present steps, in order. -/
theorem seqSteps_ok_events {ε α : Type} (L : List (α × Option (Except ε Unit)))
    (h : (seqSteps L).2 = Except.ok ()) :
    (seqSteps L).1 =
      L.filterMap (fun p => match p.2 with | none => none | some _ => some p.1) := by
  induction L with
  | nil => simp [seqSteps]
  | cons hd rest ih =>
    obtain ⟨e, res⟩ := hd
    cases res with
    | none => simpa [seqSteps, List.filterMap] using ih (by simpa [seqSteps] using h)
    | some r =>
      cases r with
      | error err => simp [seqSteps] at h
      | ok _ =>
        simp only [seqSteps, List.filterMap_cons] at h ⊢
        simpa using ih (by simpa using h)

/-- The recorded events always form a sublist of the step names. -/
theorem seqSteps_events_sublist {ε α : Type} (L : List (α × Option (Except ε Unit))) :
    List.Sublist (seqSteps L).1 (L.map Prod.fst) := by
  induction L with
  | nil => simp [seqSteps]
  | cons hd rest ih =>
    obtain ⟨e, res⟩ := hd
    cases res with
    | none => simpa [seqSteps] using List.Sublist.cons e ih
    | some r =>
      cases r with
      | error err =>
        simp [seqSteps]
      | ok _ => simpa [seqSteps] using List.Sublist.cons₂ e ih

/-! ## HTTP request lifecycle dispatcher (`handle`) -/

/-- The camel-casing scan of `` `_${operation}`.replace(/_([a-z])/gm, (s) => s[1].toUpperCase()) ``:
non-overlapping left-to-right replacement of each `_x` (lowercase `x`) by the
uppercased letter. -/
def camelizeAux : List Char → List Char
  | '_' :: c :: rest =>
    if c.isLower then c.toUpper :: camelizeAux rest
    else '_' :: camelizeAux (c :: rest)
  | c :: rest => c :: camelizeAux rest
  | [] => []

/-- The operation name computed by `handle`: prepend `'_'` to the body's
`operation` field and camel-case (`"add_reply"` becomes `"AddReply"`). -/
def camelOperation (op : String) : String :=
  String.mk (camelizeAux ('_' :: op.data))

/-- An error thrown during HTTP dispatch. -/
inductive HErr where
  | validation : String → HErr
  | invalidOperation : String → HErr
  | methodNotAllowed : String → HErr
  | permission : Int → HErr
  | privilege : Int → HErr
  | other : String → HErr
deriving DecidableEq

/-- The error that escaped the handler's `onerror` itself (a JS Error with
`message` and `stack`), when `onerror` fails. -/
structure SimpleErr where
  message : String
  stack : String
deriving DecidableEq

/-- Observable lifecycle events of one `handle` dispatch. -/
inductive HEvent where
  | init : HEvent
  | checker : HEvent
  | resolve : HEvent
  | prepUnd : HEvent
  | prep : HEvent
  | primary : String → HEvent
  | operation : String → HEvent
  | cleanup : HEvent
  | finish : HEvent
  | onerror : HEvent
deriving DecidableEq

/-- A handler/request configuration for one `handle` dispatch: the
lower-cased HTTP verb, the body's `operation` field, the names of the
function-valued members the handler exposes, the outcome of each fallible
hook, and whether `onerror` itself throws. -/
structure HSpec where
  httpMethod : String
  bodyOperation : Option String := none
  methods : List String := []
  initRes : Except HErr Unit := .ok ()
  checkerRes : Except HErr Unit := .ok ()
  hookRes : String → Except HErr Unit := fun _ => .ok ()
  onerrorFail : Option SimpleErr := none

/-- JavaScript truthiness of `ctx.request.body.operation` (a missing field
or empty string is falsy). -/
def opFieldTruthy : Option String → Bool
  | none => false
  | some s => s != ""

/-- The camel-cased operation `handle` computes up front:
`if (method === 'post' && ctx.request.body.operation)`. -/
def opName (s : HSpec) : Option String :=
  if s.httpMethod = "post" && opFieldTruthy s.bodyOperation then
    match s.bodyOperation with
    | some op => some (camelOperation op)
    | none => none
  else none

/-- The method-resolution step of `handle`: for POST with an operation,
`post<Operation>` must exist (`InvalidOperationError`); for POST without,
`post` must exist (`MethodNotAllowedError`); otherwise a same-named method
or `all` must exist (`MethodNotAllowedError`). -/
def resolveRes (s : HSpec) : Except HErr Unit :=
  if s.httpMethod = "post" then
    match opName s with
    | some o =>
      if s.methods.contains ("post" ++ o) then .ok ()
      else .error (.invalidOperation o)
    | none =>
      if s.methods.contains "post" then .ok ()
      else .error (.methodNotAllowed "post")
  else if s.methods.contains s.httpMethod || s.methods.contains "all" then .ok ()
  else .error (.methodNotAllowed s.httpMethod)

/-- The steps of `handle`'s `try` block, in source order: `init`, the
composed checker, method resolution, `_prepare`, `prepare`, the primary
verb method (`if (h[method])`), the operation method (`if (operation)`),
`cleanup`, `finish`. -/
def handleSteps (s : HSpec) : List (HEvent × Option (Except HErr Unit)) :=
  [ (.init, some s.initRes),
    (.checker, some s.checkerRes),
    (.resolve, some (resolveRes s)),
    (.prepUnd, if s.methods.contains "_prepare" then some (s.hookRes "_prepare") else none),
    (.prep, if s.methods.contains "prepare" then some (s.hookRes "prepare") else none),
    (.primary s.httpMethod,
      if s.methods.contains s.httpMethod then some (s.hookRes s.httpMethod) else none),
    (match opName s with
     | some o => (.operation ("post" ++ o), some (s.hookRes ("post" ++ o)))
     | none => (.operation "", none)),
    (.cleanup, if s.methods.contains "cleanup" then some (s.hookRes "cleanup") else none),
    (.finish, if s.methods.contains "finish" then some (s.hookRes "finish") else none) ]

/-- Running `handle`'s `try` block: the events that ran and the outcome. -/
def tryBody (s : HSpec) : List HEvent × Except HErr Unit :=
  seqSteps (handleSteps s)

/-- The response state `handle` leaves behind, as far as the error path is
concerned.  On the raw fallback the source sets `h.response.code = 500`
(the field is literally named `code`) and a plain-text body. -/
inductive RBody where
  | fromHandler : RBody
  | errorStruct : HErr → RBody
  | rawText : String → RBody
deriving DecidableEq

/-- The result of a `handle` dispatch.  `handle` never rethrows: its `catch`
calls `h.onerror(e)` exactly once, and a failure inside that call is caught
again and degrades to the raw `code = 500` body
`` `${err.message}\n${err.stack}` ``. -/
structure HResult where
  events : List HEvent
  body : RBody
  code : Option Nat
deriving DecidableEq

/-- The full `handle` dispatch (after handler construction). -/
def handle (s : HSpec) : HResult :=
  match tryBody s with
  | (l, .ok _) => ⟨l, .fromHandler, none⟩
  | (l, .error e) =>
    match s.onerrorFail with
    | none => ⟨l ++ [.onerror], .errorStruct e, none⟩
    | some err => ⟨l ++ [.onerror], .rawText (err.message ++ "\n" ++ err.stack), some 500⟩

/-! ## Socket connection protocol (`Connection`) -/

/-- An error raised during connection setup, as `ConnectionHandler.onerror`
reports it: `err.name` and `err.params || []`. -/
structure CErr where
  name : String
  params : List String
deriving DecidableEq

/-- Observable events of one socket connection's setup. -/
inductive CEvent where
  | recvCookieFrame : CEvent
  | initCall : CEvent
  | sendAuth : CEvent
  | checkerCall : CEvent
  | prepUndCall : CEvent
  | prepCall : CEvent
  | attachMessage : CEvent
  | sendErrorFrame : String → CEvent
  | closeConn : Nat → CEvent
deriving DecidableEq

/-- A connection-handler configuration: outcome of `init` (cookie-based
session/user resolution), outcome of the composed checker, and the optional
`_prepare` / `prepare` / `message` hooks. -/
structure ConnSpec where
  initRes : Except CErr Unit := .ok ()
  checkerRes : Except CErr Unit := .ok ()
  hasPrepUnd : Bool := false
  prepUndRes : Except CErr Unit := .ok ()
  hasPrep : Bool := false
  prepRes : Except CErr Unit := .ok ()
  hasMessage : Bool := true

/-- The steps of `Connection`'s `try` block, in source order: await the
first data frame (the cookie), `h.init(args)`, write the
`{event:'auth'}` frame, `checker.call(h)`, `_prepare`, `prepare`, and
attach the message-loop listener (`if (h.message)`). -/
def connSteps (s : ConnSpec) : List (CEvent × Option (Except CErr Unit)) :=
  [ (.recvCookieFrame, some (.ok ())),
    (.initCall, some s.initRes),
    (.sendAuth, some (.ok ())),
    (.checkerCall, some s.checkerRes),
    (.prepUndCall, if s.hasPrepUnd then some s.prepUndRes else none),
    (.prepCall, if s.hasPrep then some s.prepRes else none),
    (.attachMessage, if s.hasMessage then some (.ok ()) else none) ]

/-- The events of one connection's setup: the `try` block's events, and on
any failure the `catch` runs `h.onerror(e)`, which sends one structured
`{error:{name, params}}` frame and then closes with code 1001. -/
def connTrace (s : ConnSpec) : List CEvent :=
  match seqSteps (connSteps s) with
  | (l, .ok _) => l
  | (l, .error e) => l ++ [.sendErrorFrame e.name, .closeConn 1001]

/-! ## Theorems for the claims -/

/-- C1: applying parameter declarations A, B, C in that order builds exactly
`[domainId, C, B, A]` — the first application seeds the synthetic `domainId`
descriptor and every declaration is spliced into position 1 — and the binder
passes the bound values in that exact positional order. -/
theorem descriptor_order_and_binding (A B C : ParamOption) (r : ReqEnv) :
    buildParams [A, B, C] = [domainIdParam, C, B, A] ∧
    ∀ vs : List JsVal, bindArgs r (buildParams [A, B, C]) = .ok vs →
      vs = [boundValue r domainIdParam, boundValue r C, boundValue r B, boundValue r A] := by
  constructor
  · rfl
  · intro vs h
    rw [bindArgs_ok_map r _ vs h]
    rfl

/-- Concrete declarations and environment used by the C1 witness. -/
def wA : ParamOption := { name := "a", source := .get }

def wB : ParamOption := { name := "b", source := .post }

def wC : ParamOption := { name := "c", source := .all }

def wEnv : ReqEnv :=
  { rawArgs := fun _ => .str "r", query := fun _ => .str "q",
    params := fun _ => .str "p", body := fun _ => .str "m", domainId := "system" }

/-- Witness for C1: binding the built descriptor list succeeds and the
arguments come out in the order domainId, C, B, A. -/
theorem descriptor_order_and_binding_witness :
    bindArgs wEnv (buildParams [wA, wB, wC]) =
      .ok [JsVal.str "system", JsVal.str "r", JsVal.str "m", JsVal.str "q"] ∧
    [JsVal.str "system", JsVal.str "r", JsVal.str "m", JsVal.str "q"] =
      [boundValue wEnv domainIdParam, boundValue wEnv wC,
        boundValue wEnv wB, boundValue wEnv wA] :=
  ⟨by rfl, (descriptor_order_and_binding wA wB wC wEnv).2 _ (by rfl)⟩

/-- C3: an optional descriptor with a falsy raw value binds `undefined`
(whatever its validator and converter are, so neither is invoked); a
required descriptor with an absent raw value raises `ValidationError` with
its field name; a present truthy value failing the validator raises
`ValidationError` with the field name; otherwise the converter's result (or
the raw value without a converter) is appended. -/
theorem binding_optional_validate_convert (r : ReqEnv) (item : ParamOption) :
    (item.isOptional = true → truthy (selectSrc r item.source item.name) = false →
      bindOne r item = .ok .undefined) ∧
    (item.isOptional = false → selectSrc r item.source item.name = .undefined →
      bindOne r item = .error ⟨item.name⟩) ∧
    (∀ f, item.validate = some f → truthy (selectSrc r item.source item.name) = true →
      f (selectSrc r item.source item.name) = false →
      bindOne r item = .error ⟨item.name⟩) ∧
    (truthy (selectSrc r item.source item.name) = true →
      (∀ f, item.validate = some f → f (selectSrc r item.source item.name) = true) →
      bindOne r item = .ok (boundValue r item) ∧
      boundValue r item = (match item.convert with
        | some g => g (selectSrc r item.source item.name)
        | none => selectSrc r item.source item.name)) := by
  refine ⟨?_, ?_, ?_, ?_⟩
  · intro hOpt hF
    simp [bindOne, hOpt, hF]
  · intro hReq hAbs
    simp [bindOne, hReq, hAbs, truthy]
  · intro f hval hT hf
    simp [bindOne, hval, hT, hf]
  · intro hT hVal
    cases hv : item.validate with
    | some f =>
      cases hc : item.convert <;>
        simp [bindOne, boundValue, hv, hc, hT, hVal f hv]
    | none =>
      cases hc : item.convert <;> simp [bindOne, boundValue, hv, hc, hT]

/-- Concrete descriptors and environment used by the C3 witness. -/
def wOptItem : ParamOption :=
  { name := "x", source := .get, isOptional := true,
    validate := some (fun _ => false), convert := some (fun _ => .str "boom") }

def wReqItem : ParamOption := { name := "y", source := .get }

def wEmptyEnv : ReqEnv :=
  { rawArgs := fun _ => .undefined, query := fun _ => .undefined,
    params := fun _ => .undefined, body := fun _ => .undefined, domainId := "system" }

/-- Witness for C3: at an absent query field, the optional descriptor binds
`undefined` even though its validator always fails and its converter would
rewrite the value, and the required descriptor raises `ValidationError "y"`. -/
theorem binding_optional_validate_convert_witness :
    bindOne wEmptyEnv wOptItem = .ok .undefined ∧
    bindOne wEmptyEnv wReqItem = .error ⟨"y"⟩ :=
  ⟨(binding_optional_validate_convert wEmptyEnv wOptItem).1 rfl rfl,
    (binding_optional_validate_convert wEmptyEnv wReqItem).2.1 rfl rfl⟩

/-- C10: binding decides presence by JavaScript truthiness, not key
presence — a required descriptor whose raw value is present but falsy
(`""`, `0`, `false`, `null`) raises `ValidationError` with the field name,
and an optional descriptor with such a value binds `undefined`, discarding
it without validation or conversion. -/
theorem binding_truthiness_not_presence (r : ReqEnv) (item : ParamOption)
    (hfalsy : selectSrc r item.source item.name = .str "" ∨
      selectSrc r item.source item.name = .num 0 ∨
      selectSrc r item.source item.name = .boolean false ∨
      selectSrc r item.source item.name = .null) :
    (item.isOptional = false → bindOne r item = .error ⟨item.name⟩) ∧
    (item.isOptional = true → bindOne r item = .ok .undefined) := by
  have hT : truthy (selectSrc r item.source item.name) = false := by
    rcases hfalsy with h | h | h | h <;> simp [h, truthy]
  constructor <;> intro hOpt <;> simp [bindOne, hOpt, hT]

/-- Environment used by the C10 witness: the query holds the empty string. -/
def wFalsyEnv : ReqEnv :=
  { rawArgs := fun _ => .undefined, query := fun _ => .str "",
    params := fun _ => .undefined, body := fun _ => .undefined, domainId := "system" }

/-- Witness for C10: a present-but-empty query value fails a required
descriptor with `ValidationError` and binds `undefined` for an optional
descriptor that would otherwise convert it. -/
theorem binding_truthiness_not_presence_witness :
    bindOne wFalsyEnv { name := "x", source := .get } = .error ⟨"x"⟩ ∧
    bindOne wFalsyEnv { wOptItem with name := "x" } = .ok .undefined :=
  ⟨(binding_truthiness_not_presence wFalsyEnv { name := "x", source := .get }
      (Or.inl rfl)).1 rfl,
    (binding_truthiness_not_presence wFalsyEnv { wOptItem with name := "x" }
      (Or.inl rfl)).2 rfl⟩

/-- C4 counterexample: `Types.Array`'s convert does not return an empty
sequence on null — it returns `[null]`. -/
theorem arrayConvert_null_counterexample :
    ¬ arrayConvert JsVal.null = JsVal.arr [] := by
  simp [arrayConvert, jsOr, truthy]

/-- C4 amended: the convert returns an array input unchanged and wraps every
non-array input — null and undefined included — into a single-element
sequence; the `|| []` empty-sequence fallback is unreachable because the
freshly built one-element array is always truthy. -/
theorem arrayConvert_wraps (v : JsVal) :
    (∀ xs, arrayConvert (JsVal.arr xs) = JsVal.arr xs) ∧
    ((∀ xs, v ≠ JsVal.arr xs) → arrayConvert v = JsVal.arr [v]) := by
  constructor
  · intro xs
    rfl
  · intro hv
    cases v <;> first
      | exact absurd rfl (hv _)
      | simp [arrayConvert, jsOr, truthy]

/-- Witness for C4 (amended): null is wrapped into `[null]`, and undefined
into `[undefined]`. -/
theorem arrayConvert_wraps_witness :
    arrayConvert JsVal.null = JsVal.arr [JsVal.null] ∧
    arrayConvert JsVal.undefined = JsVal.arr [JsVal.undefined] :=
  ⟨(arrayConvert_wraps JsVal.null).2 (fun _ h => nomatch h),
    (arrayConvert_wraps JsVal.undefined).2 (fun _ h => nomatch h)⟩

/-- C8 counterexample: the string "0" denotes the finite value 0, yet
`Types.Float`'s validate rejects it — the leading `t &&` conjunct makes the
check truthiness, not finiteness. -/
theorem floatValidate_zero_counterexample :
    floatValidate "0" = false ∧ jsIsFinite (jsParseFloat "0") = true := by
  have hstep : jsParseFloat "0" =
      JsNum.val (1 * ((digitsNat ['0'] : ℚ) + fracVal [])) := rfl
  have h1 : digitsNat ['0'] = 0 := rfl
  have h2 : fracVal ([] : List Char) = 0 := rfl
  have h0 : jsParseFloat "0" = JsNum.val 0 := by
    rw [hstep, h1, h2]
    norm_num
  refine ⟨?_, ?_⟩
  · simp [floatValidate, h0, jsNumTruthy, jsIsNaN, jsIsFinite]
  · simp [h0, jsIsFinite]

/-- C8 amended: for every raw input (within the decimal-literal model of
parseFloat), Float validation passes iff the parsed value is finite AND
nonzero; zero is rejected by the truthiness conjunct. -/
theorem floatValidate_iff (v : String) :
    floatValidate v = true ↔
      (jsIsFinite (jsParseFloat v) = true ∧ jsParseFloat v ≠ JsNum.val 0) := by
  unfold floatValidate
  cases h : jsParseFloat v with
  | nan => simp [jsNumTruthy, jsIsNaN, jsIsFinite]
  | inf => simp [jsNumTruthy, jsIsNaN, jsIsFinite]
  | ninf => simp [jsNumTruthy, jsIsNaN, jsIsFinite]
  | val q => by_cases hq : q = 0 <;> simp [jsNumTruthy, jsIsNaN, jsIsFinite, hq]

/-- C6: for every composed guard, evaluation runs the custom predicate
first, then the permission check, then the privilege check; a failing
predicate aborts with its own error and a failing permission check raises
`PermissionError`, in both cases for every possible outcome of the later
checks (so they are never evaluated); a failing privilege check raises
`PrivilegeError`. -/
theorem guard_evaluation_order (l : List Fragment) (hasPerm hasPriv : Int → Bool) :
    (∀ e, (collectFragments l).checker = .error e →
      runGuard (collectFragments l) hasPerm hasPriv = .error e) ∧
    (∀ p, (collectFragments l).checker = .ok () → (collectFragments l).perm = some p →
      p ≠ 0 → hasPerm p = false →
      runGuard (collectFragments l) hasPerm hasPriv = .error (.permission p)) ∧
    (∀ q, (collectFragments l).checker = .ok () →
      (∀ p, (collectFragments l).perm = some p → p ≠ 0 → hasPerm p = true) →
      (collectFragments l).priv = some q → q ≠ 0 → hasPriv q = false →
      runGuard (collectFragments l) hasPerm hasPriv = .error (.privilege q)) := by
  refine ⟨?_, ?_, ?_⟩
  · intro e he
    simp [runGuard, he]
  · intro p hc hp hp0 hfail
    simp [runGuard, hc, hp, hp0, hfail]
  · intro q hc hperm hq hq0 hfail
    cases hp : (collectFragments l).perm with
    | none => simp [runGuard, runGuard.runPriv, hc, hp, hq, hq0, hfail]
    | some p =>
      by_cases hp0 : p = 0
      · simp [runGuard, runGuard.runPriv, hc, hp, hp0, hq, hq0, hfail]
      · simp [runGuard, runGuard.runPriv, hc, hp, hp0, hperm p hp hp0, hq, hq0, hfail]

/-- Witness for C6: a guard composed of a permission mask 4 and a privilege
mask 2, on a user who lacks the permission, raises `PermissionError 4` no
matter what the privilege lookup would say. -/
theorem guard_evaluation_order_witness :
    runGuard (collectFragments [Fragment.permF 4, Fragment.privF 2])
      (fun _ => false) (fun _ => true) = .error (.permission 4) :=
  (guard_evaluation_order [Fragment.permF 4, Fragment.privF 2]
    (fun _ => false) (fun _ => true)).2.1 4 rfl rfl (by decide) rfl

/-- The events `handle` records: the `try` block's events, followed by the
single `onerror` call when the block raised. -/
theorem handle_events (s : HSpec) :
    (handle s).events = (tryBody s).1 ++
      (match (tryBody s).2 with
       | Except.ok _ => ([] : List HEvent)
       | Except.error _ => [HEvent.onerror]) := by
  rcases htb : tryBody s with ⟨l, r⟩
  cases r with
  | ok u => simp [handle, htb]
  | error e => cases herr : s.onerrorFail <;> simp [handle, htb, herr]

/-- Pushing the present-step filter through an optional (`if`-guarded)
step. -/
theorem filterMap_step_if {ε α : Type} (e : α) (c : Bool) (r : Except ε Unit)
    (rest : List (α × Option (Except ε Unit))) :
    List.filterMap (fun p => match p.2 with | none => none | some _ => some p.1)
      ((e, if c then some r else none) :: rest) =
      (if c then [e] else []) ++
      List.filterMap (fun p => match p.2 with | none => none | some _ => some p.1) rest := by
  cases c <;> simp [List.filterMap_cons]

/-- Pushing the present-step filter through an always-run step. -/
theorem filterMap_step_some {ε α : Type} (e : α) (r : Except ε Unit)
    (rest : List (α × Option (Except ε Unit))) :
    List.filterMap (fun p => match p.2 with | none => none | some _ => some p.1)
      ((e, some r) :: rest) =
      e :: List.filterMap (fun p => match p.2 with | none => none | some _ => some p.1) rest := by
  simp [List.filterMap_cons]

/-- Pushing the present-step filter through a skipped step. -/
theorem filterMap_step_none {ε α : Type} (e : α)
    (rest : List (α × Option (Except ε Unit))) :
    List.filterMap (fun p => match p.2 with | none => none | some _ => some p.1)
      ((e, (none : Option (Except ε Unit))) :: rest) =
      List.filterMap (fun p => match p.2 with | none => none | some _ => some p.1) rest := by
  simp [List.filterMap_cons]

/-- When the `try` block succeeds, its events are exactly the present
steps, in source order. -/
theorem tryBody_success_trace (s : HSpec) (h : (tryBody s).2 = Except.ok ()) :
    (tryBody s).1 =
      [HEvent.init, HEvent.checker, HEvent.resolve]
      ++ (if s.methods.contains "_prepare" then [HEvent.prepUnd] else [])
      ++ (if s.methods.contains "prepare" then [HEvent.prep] else [])
      ++ (if s.methods.contains s.httpMethod then [HEvent.primary s.httpMethod] else [])
      ++ (match opName s with
          | some o => [HEvent.operation ("post" ++ o)] | none => [])
      ++ (if s.methods.contains "cleanup" then [HEvent.cleanup] else [])
      ++ (if s.methods.contains "finish" then [HEvent.finish] else []) := by
  rw [tryBody, seqSteps_ok_events _ h]
  cases hop : opName s <;>
    simp only [handleSteps, hop, filterMap_step_some, filterMap_step_if,
      filterMap_step_none, List.filterMap_nil, List.cons_append, List.nil_append,
      List.append_nil, List.append_assoc]

/-- The lifecycle order the specification states for a successful request:
init, the authorization guard, method resolution, `_prepare`, `prepare`, the
primary method, the secondary operation method (if any), cleanup, finish —
every optional hook appearing exactly when the handler defines it. -/
def specLifecycleOrder (s : HSpec) : List HEvent :=
  [HEvent.init, HEvent.checker, HEvent.resolve]
  ++ (if s.methods.contains "_prepare" then [HEvent.prepUnd] else [])
  ++ (if s.methods.contains "prepare" then [HEvent.prep] else [])
  ++ (if s.methods.contains s.httpMethod then [HEvent.primary s.httpMethod] else [])
  ++ (match opName s with
      | some o => [HEvent.operation ("post" ++ o)] | none => [])
  ++ (if s.methods.contains "cleanup" then [HEvent.cleanup] else [])
  ++ (if s.methods.contains "finish" then [HEvent.finish] else [])

/-- C2: for a successfully dispatched request the lifecycle hooks run in
exactly the stated order, and a failure inside the authorization guard
means `prepare` and the method body are never invoked. -/
theorem lifecycle_order (s : HSpec) :
    ((tryBody s).2 = Except.ok () → (tryBody s).1 = specLifecycleOrder s) ∧
    (∀ e, s.checkerRes = .error e →
      HEvent.prep ∉ (handle s).events ∧
      HEvent.prepUnd ∉ (handle s).events ∧
      ∀ n, HEvent.primary n ∉ (handle s).events) := by
  constructor
  · intro h
    rw [tryBody_success_trace s h]
    rfl
  · intro e he
    have hev : (handle s).events = [HEvent.init, HEvent.onerror] ∨
        (handle s).events = [HEvent.init, HEvent.checker, HEvent.onerror] := by
      cases hi : s.initRes with
      | error e0 =>
        left
        rw [handle_events]
        simp [tryBody, handleSteps, seqSteps, hi]
      | ok u =>
        right
        cases u
        rw [handle_events]
        simp [tryBody, handleSteps, seqSteps, hi, he]
    rcases hev with h | h <;> rw [h] <;>
      exact ⟨by simp, by simp, fun n => by simp⟩

/-- Concrete handler configurations used by the C2 witness: a fully
populated POST handler with an operation, and one whose guard raises. -/
def wFullSpec : HSpec :=
  { httpMethod := "post", bodyOperation := some "add_reply",
    methods := ["_prepare", "prepare", "post", "postAddReply", "cleanup", "finish"] }

def wGuardFailSpec : HSpec :=
  { httpMethod := "get", methods := ["get"],
    checkerRes := .error (.permission 4) }

/-- Witness for C2: the fully populated handler records exactly the stated
order, and the guard-failing handler never reaches prepare or a method
body. -/
theorem lifecycle_order_witness :
    (tryBody wFullSpec).1 = specLifecycleOrder wFullSpec ∧
    (HEvent.prep ∉ (handle wGuardFailSpec).events ∧
      HEvent.prepUnd ∉ (handle wGuardFailSpec).events ∧
      ∀ n, HEvent.primary n ∉ (handle wGuardFailSpec).events) :=
  ⟨(lifecycle_order wFullSpec).1 (by rfl),
    (lifecycle_order wGuardFailSpec).2 (.permission 4) rfl⟩

/-- C5: a POST body operation is camel-cased (`"add_reply"` becomes
`postAddReply`); when the handler lacks the named method the dispatch
raises `InvalidOperationError`; a POST with no operation and no generic
`post` method raises `MethodNotAllowedError`; and when the method exists it
is invoked after the primary `post` method. -/
theorem operation_dispatch (s : HSpec) :
    camelOperation "add_reply" = "AddReply" ∧
    (∀ op, s.httpMethod = "post" → s.bodyOperation = some op → op ≠ "" →
      s.methods.contains ("post" ++ camelOperation op) = false →
      s.initRes = .ok () → s.checkerRes = .ok () →
      (tryBody s).2 = .error (.invalidOperation (camelOperation op))) ∧
    (s.httpMethod = "post" → opFieldTruthy s.bodyOperation = false →
      s.methods.contains "post" = false →
      s.initRes = .ok () → s.checkerRes = .ok () →
      (tryBody s).2 = .error (.methodNotAllowed "post")) ∧
    (∀ op, s.httpMethod = "post" → s.bodyOperation = some op → op ≠ "" →
      s.methods.contains ("post" ++ camelOperation op) = true →
      s.methods.contains "post" = true →
      (tryBody s).2 = Except.ok () →
      ∃ l₁ l₂ l₃, (tryBody s).1 =
        l₁ ++ HEvent.primary "post" :: l₂
          ++ HEvent.operation ("post" ++ camelOperation op) :: l₃) := by
  refine ⟨by decide, ?_, ?_, ?_⟩
  · intro op hm hop hne hcon hi hc
    have hopn : opName s = some (camelOperation op) := by
      simp [opName, hm, hop, opFieldTruthy, hne]
    have hcon' : ("post" ++ camelOperation op) ∉ s.methods := by simpa using hcon
    have hres : resolveRes s = .error (.invalidOperation (camelOperation op)) := by
      simp [resolveRes, hm, hopn, hcon']
    simp [tryBody, handleSteps, seqSteps, hi, hc, hres]
  · intro hm hopf hcon hi hc
    have hopn : opName s = none := by
      simp [opName, hopf]
    have hcon' : "post" ∉ s.methods := by simpa using hcon
    have hres : resolveRes s = .error (.methodNotAllowed "post") := by
      simp [resolveRes, hm, hopn, hcon']
    simp [tryBody, handleSteps, seqSteps, hi, hc, hres]
  · intro op hm hop hne hconOp hconPost hok
    have hopn : opName s = some (camelOperation op) := by
      simp [opName, hm, hop, opFieldTruthy, hne]
    refine ⟨[HEvent.init, HEvent.checker, HEvent.resolve]
        ++ (if s.methods.contains "_prepare" then [HEvent.prepUnd] else [])
        ++ (if s.methods.contains "prepare" then [HEvent.prep] else []),
      [],
      (if s.methods.contains "cleanup" then [HEvent.cleanup] else [])
        ++ (if s.methods.contains "finish" then [HEvent.finish] else []), ?_⟩
    rw [tryBody_success_trace s hok, hm, hconPost, hopn]
    simp

/-- Handler configurations used by the C5 witness: one lacking
`postAddReply`, one exposing it. -/
def wInvalidOpSpec : HSpec :=
  { httpMethod := "post", bodyOperation := some "add_reply", methods := ["post"] }

def wOpSpec : HSpec :=
  { httpMethod := "post", bodyOperation := some "add_reply",
    methods := ["post", "postAddReply"] }

/-- Witness for C5: the handler without `postAddReply` fails with
`InvalidOperationError`, and the handler with it runs it after the primary
`post` method. -/
theorem operation_dispatch_witness :
    (tryBody wInvalidOpSpec).2 = .error (.invalidOperation "AddReply") ∧
    ∃ l₁ l₂ l₃, (tryBody wOpSpec).1 =
      l₁ ++ HEvent.primary "post" :: l₂ ++ HEvent.operation "postAddReply" :: l₃ :=
  ⟨(operation_dispatch wInvalidOpSpec).2.1 "add_reply" rfl rfl (by decide)
      (by decide) rfl rfl,
    (operation_dispatch wOpSpec).2.2.2 "add_reply" rfl rfl (by decide)
      (by decide) (by decide) (by rfl)⟩

/-- C7: every error raised after handler construction is routed to exactly
one `onerror` call (none on success), and when `onerror` itself throws the
dispatcher does not propagate the second failure — the response degrades to
the raw `code = 500` plain-text body `message\nstack`. -/
theorem error_recovery_exactly_once (s : HSpec) :
    ((handle s).events.count HEvent.onerror =
      match (tryBody s).2 with | Except.ok _ => 0 | Except.error _ => 1) ∧
    (∀ e err, (tryBody s).2 = .error e → s.onerrorFail = some err →
      (handle s).body = .rawText (err.message ++ "\n" ++ err.stack) ∧
      (handle s).code = some 500) := by
  have h0 : (tryBody s).1.count HEvent.onerror = 0 := by
    rw [List.count_eq_zero]
    intro hmem
    have hsub := (seqSteps_events_sublist (handleSteps s)).subset hmem
    cases hop : opName s <;> simp [handleSteps, hop] at hsub
  constructor
  · rw [handle_events]
    cases hres : (tryBody s).2 with
    | ok u => simpa [List.count_append] using h0
    | error e => simp [List.count_append, h0]
  · intro e err he herr
    rcases htb : tryBody s with ⟨l, r⟩
    rw [htb] at he
    simp only at he
    subst he
    constructor <;> simp [handle, htb, herr]

/-- Handler configuration used by the C7 witness: `init` throws and
`onerror` itself throws. -/
def wOnerrorFailSpec : HSpec :=
  { httpMethod := "get", methods := ["get"],
    initRes := .error (.other "db down"),
    onerrorFail := some ⟨"template crashed", "stacktrace"⟩ }

/-- Witness for C7: when recovery throws, the dispatch ends with the raw
500 body carrying the failure text. -/
theorem error_recovery_exactly_once_witness :
    (handle wOnerrorFailSpec).body =
      .rawText ("template crashed" ++ "\n" ++ "stacktrace") ∧
    (handle wOnerrorFailSpec).code = some 500 :=
  (error_recovery_exactly_once wOnerrorFailSpec).2 (.other "db down")
    ⟨"template crashed", "stacktrace"⟩ rfl rfl

/-- C9: the first inbound frame is consumed as the cookie; when `init`
succeeds the connection receives exactly one `{event:"auth"}` frame, before
the guard, `prepare` or any message handling; when the guard and the
prepare hooks also succeed, the message-loop listener — which dispatches
every subsequent inbound frame to the `message` hook — is attached, after
that single auth frame, the guard and the prepare hooks (the
`hasMessage = true` hypothesis is `if (h.message)`, always satisfied
because the base `ConnectionHandler` defines `message`); when `init` fails
the connection receives exactly one structured error frame and is closed
with code 1001 without ever entering the message loop. -/
theorem socket_handshake (s : ConnSpec) :
    (s.initRes = .ok () →
      ∃ rest, connTrace s =
        [CEvent.recvCookieFrame, CEvent.initCall, CEvent.sendAuth,
          CEvent.checkerCall] ++ rest ∧
        CEvent.sendAuth ∉ rest) ∧
    (s.initRes = .ok () → s.checkerRes = .ok () →
      (s.hasPrepUnd = true → s.prepUndRes = .ok ()) →
      (s.hasPrep = true → s.prepRes = .ok ()) →
      s.hasMessage = true →
      connTrace s =
        [CEvent.recvCookieFrame, CEvent.initCall, CEvent.sendAuth,
          CEvent.checkerCall]
        ++ (if s.hasPrepUnd then [CEvent.prepUndCall] else [])
        ++ (if s.hasPrep then [CEvent.prepCall] else [])
        ++ [CEvent.attachMessage]) ∧
    (∀ e, s.initRes = .error e →
      connTrace s = [CEvent.recvCookieFrame, CEvent.initCall,
        CEvent.sendErrorFrame e.name, CEvent.closeConn 1001] ∧
      CEvent.sendAuth ∉ connTrace s ∧
      CEvent.attachMessage ∉ connTrace s) := by
  refine ⟨?_, ?_, ?_⟩
  · intro hi
    cases hc : s.checkerRes <;>
    cases hpu : s.hasPrepUnd <;>
    cases hpur : s.prepUndRes <;>
    cases hp : s.hasPrep <;>
    cases hpr : s.prepRes <;>
    cases hm : s.hasMessage <;>
    · simp only [connTrace, connSteps, seqSteps, hi, hc, hpu, hpur, hp, hpr, hm,
        if_true, if_false, List.cons_append, List.nil_append]
      exact ⟨_, rfl, by simp⟩
  · intro hi hc hpu hp hm
    cases hpub : s.hasPrepUnd with
    | false =>
      cases hpb : s.hasPrep with
      | false => simp [connTrace, connSteps, seqSteps, hi, hc, hm, hpub, hpb]
      | true =>
        simp [connTrace, connSteps, seqSteps, hi, hc, hm, hpub, hpb, hp hpb]
    | true =>
      cases hpb : s.hasPrep with
      | false =>
        simp [connTrace, connSteps, seqSteps, hi, hc, hm, hpub, hpb, hpu hpub]
      | true =>
        simp [connTrace, connSteps, seqSteps, hi, hc, hm, hpub, hpb,
          hpu hpub, hp hpb]
  · intro e he
    refine ⟨?_, ?_, ?_⟩ <;> simp [connTrace, connSteps, seqSteps, he]

/-- Connection configurations used by the C9 witness: a successful
handshake and one whose cookie resolves no user. -/
def wConnOkSpec : ConnSpec := { hasPrep := true }

def wConnFailSpec : ConnSpec :=
  { initRes := .error ⟨"UserNotFoundError", ["0"]⟩ }

/-- Witness for C9: the successful handshake emits the auth frame once
before guard and prepare and ends by attaching the message-loop listener,
and the failed one emits one error frame and closes with 1001. -/
theorem socket_handshake_witness :
    (∃ rest, connTrace wConnOkSpec =
      [CEvent.recvCookieFrame, CEvent.initCall, CEvent.sendAuth,
        CEvent.checkerCall] ++ rest ∧ CEvent.sendAuth ∉ rest) ∧
    connTrace wConnOkSpec =
      [CEvent.recvCookieFrame, CEvent.initCall, CEvent.sendAuth,
        CEvent.checkerCall, CEvent.prepCall, CEvent.attachMessage] ∧
    connTrace wConnFailSpec = [CEvent.recvCookieFrame, CEvent.initCall,
      CEvent.sendErrorFrame "UserNotFoundError", CEvent.closeConn 1001] :=
  ⟨(socket_handshake wConnOkSpec).1 rfl,
    (socket_handshake wConnOkSpec).2.1 rfl rfl (fun _ => rfl) (fun _ => rfl) rfl,
    ((socket_handshake wConnFailSpec).2.2 ⟨"UserNotFoundError", ["0"]⟩ rfl).1⟩

end Hydro
